import Mathlib

/-
  Shallow embedding of the Beagle ecosystem-inventory core
  (src/legacy/validation/health.py, src/legacy/beagle.py,
   src/legacy/output/report_generator.py, src/legacy/output/scripts.py).

  Machine integers are modelled as Int, Python dicts as association
  lists where a later assignment shadows an earlier one, Python sets as
  duplicate-free insertion lists (only membership is ever observed), and
  the network as an explicit environment of probe outcomes.
-/

namespace Beagle

/-! ### String primitives

The Python code uses str.lower, str.replace with a one-character
pattern, and str.startswith. The Lean core versions of these get stuck
under kernel reduction, so the same functions are written here over the
underlying character lists. -/

/-- ASCII lower-casing of one character (every name the code lowers is
ASCII). -/
def lowerChar (c : Char) : Char :=
  if 65 ≤ c.toNat ∧ c.toNat ≤ 90 then Char.ofNat (c.toNat + 32) else c

/-- str.lower. -/
def strLower (s : String) : String := ⟨s.data.map lowerChar⟩

/-- str.replace with the one-character pattern "-", the only pattern the
source uses: every hyphen is replaced by the given string. -/
def replaceHyphens (s : String) (new : String) : String :=
  ⟨s.data.foldr (fun c acc => if c = '-' then new.data ++ acc else c :: acc) []⟩

/-- str.startswith. -/
def strStartsWith (s p : String) : Bool := p.data.isPrefixOf s.data

/-- Insertion into a sorted list, for the model of Python sorted(). -/
def insertSorted (x : Int) : List Int → List Int
  | [] => [x]
  | y :: ys => if x ≤ y then x :: y :: ys else y :: insertSorted x ys

/-- Python sorted() on a list of integers. -/
def sortInts (l : List Int) : List Int := l.foldr insertSorted []

/-! ### validation/health.py : data model -/

/-- Dataclass HealthCheck from validation/health.py. -/
structure HealthCheck where
  name : String
  url : Option String := none
  host : String := "localhost"
  port : Option Int := none
  expectHttp : Bool := true
deriving Repr, DecidableEq

/-- Dataclass HealthCheckResult from validation/health.py. -/
structure HealthCheckResult where
  name : String
  url : Option String
  statusCode : Option Int
  ok : Bool
  error : Option String := none
  port : Option Int := none
deriving Repr, DecidableEq

/-- Outcome of requests.get: either a response carrying the transport
status code and its own success predicate (response.ok), or a raised
RequestException with its message. -/
inductive HttpOutcome where
  | response (statusCode : Int) (ok : Bool)
  | failure (message : String)
deriving Repr, DecidableEq

/-- Outcome of socket.create_connection: connected, or an OSError. -/
inductive TcpOutcome where
  | connected
  | failure (message : String)
deriving Repr, DecidableEq

/-- The network as seen by one run: what every HTTP GET and every raw
TCP connect would return. -/
structure NetEnv where
  httpGet : String → HttpOutcome
  tcpConnect : String → Int → TcpOutcome

/-- Python truthiness of an optional string: None and the empty string
are falsy. -/
def strTruthy : Option String → Bool
  | none => false
  | some s => !s.isEmpty

/-- The URL probed on the TCP-then-HTTP path of run_health_checks. -/
def healthUrl (host : String) (port : Int) : String :=
  "http://" ++ host ++ ":" ++ toString port ++ "/health"

/-- One iteration of the loop in run_health_checks: every branch of the
Python code appends exactly one HealthCheckResult for the current check. -/
def runOneHealthCheck (env : NetEnv) (check : HealthCheck) : HealthCheckResult :=
  if strTruthy check.url then
    -- `if check.url:` branch
    match env.httpGet (check.url.getD "") with
    | .response status ok =>
        { name := check.name, url := some (check.url.getD ""),
          statusCode := some status, ok := ok }
    | .failure msg =>
        { name := check.name, url := some (check.url.getD ""), statusCode := none,
          ok := false, error := some msg }
  else
    match check.port with
    | none =>
        -- `if check.port is None:` branch
        { name := check.name, url := none, statusCode := none, ok := false,
          error := some "Health check sem URL ou porta definida.", port := none }
    | some port =>
        match env.tcpConnect check.host port with
        | .failure msg =>
            { name := check.name, url := none, statusCode := none, ok := false,
              error := some msg, port := some port }
        | .connected =>
            if check.expectHttp then
              match env.httpGet (healthUrl check.host port) with
              | .response status ok =>
                  { name := check.name, url := some (healthUrl check.host port),
                    statusCode := some status, ok := ok, port := some port }
              | .failure msg =>
                  { name := check.name, url := some (healthUrl check.host port),
                    statusCode := none, ok := false, error := some msg,
                    port := some port }
            else
              -- tcp_ok is True on this path
              { name := check.name, url := none, statusCode := none, ok := true,
                port := some port }

/-- run_health_checks from validation/health.py: the for-loop appends
runOneHealthCheck of each check, in order. -/
def run_health_checks (env : NetEnv) (checks : List HealthCheck) : List HealthCheckResult :=
  checks.map (runOneHealthCheck env)

/-! ### beagle.py : health-check assembly from the YAML config -/

/-- The port field of a config entry: Python later applies int() to it,
which can raise ValueError. -/
inductive PortField where
  | valid (n : Int)
  | invalid (raw : String)
deriving Repr, DecidableEq

/-- One entry of the health_checks list of config.yaml, after the
entry.get calls of _assemble_health_checks (host and expect_http with
their defaults already applied). -/
structure ConfigEntry where
  name : Option String := none
  url : Option String := none
  port : Option PortField := none
  host : String := "localhost"
  expectHttp : Bool := true
deriving Repr, DecidableEq

/-- DEFAULT_PORT_CHECKS from beagle.py. -/
def DEFAULT_PORT_CHECKS : List Int := [8090, 8091, 8093, 6333, 11434]

/-- Adding an element to a Python set, modelled on duplicate-free
insertion lists; only membership is ever observed. -/
def setAdd (s : List Int) (p : Int) : List Int :=
  if p ∈ s then s else p :: s

/-- The first loop of _assemble_health_checks: walks the config entries
in order, returning the checks appended so far paired with the
registered_ports set. Entries without a truthy name are skipped; a
truthy url wins over a port; a port that int() rejects is skipped. -/
def assembleFromConfig : List ConfigEntry → List HealthCheck × List Int
  | [] => ([], [])
  | entry :: rest =>
    if !strTruthy entry.name then assembleFromConfig rest
    else if strTruthy entry.url then
      let prev := assembleFromConfig rest
      ({ name := entry.name.getD "", url := entry.url } :: prev.1, prev.2)
    else
      match entry.port with
      | none => assembleFromConfig rest
      | some (.invalid _) => assembleFromConfig rest
      | some (.valid n) =>
        let prev := assembleFromConfig rest
        ({ name := entry.name.getD "", host := entry.host, port := some n,
           expectHttp := entry.expectHttp } :: prev.1, setAdd prev.2 n)

/-- The second loop of _assemble_health_checks: append one default check
per DEFAULT_PORT_CHECKS port that is not in registered_ports. -/
def defaultChecks (registered : List Int) : List HealthCheck :=
  (DEFAULT_PORT_CHECKS.filter (fun port => !registered.contains port)).map fun port =>
    { name := "Porta " ++ toString port, host := "localhost", port := some port,
      expectHttp := true }

/-- The function _assemble_health_checks from beagle.py: config-derived checks
followed by the default-port augmentation. -/
def assemble_health_checks (entries : List ConfigEntry) : List HealthCheck :=
  let fromConfig := assembleFromConfig entries
  fromConfig.1 ++ defaultChecks fromConfig.2

/-- A config entry registers port P when it survives every guard of the
port branch of the first loop: truthy name, no truthy url, and a port
value int() accepts. -/
def registersPort (entry : ConfigEntry) (P : Int) : Prop :=
  strTruthy entry.name = true ∧ strTruthy entry.url = false ∧
    entry.port = some (.valid P)

instance (entry : ConfigEntry) (P : Int) : Decidable (registersPort entry P) := by
  unfold registersPort ; infer_instance

/-! ### output/report_generator.py : alias table and dependency edges -/

/-- Dataclass RepositoryInfo from discovery/repos.py (path kept as its
string form). -/
structure RepositoryInfo where
  name : String
  path : String
  currentBranch : Option String := none
  description : Option String := none
deriving Repr, DecidableEq

/-- Dataclass CodeSummary from discovery/code.py, reduced to the fields
the dependency-graph builder reads: summary.path.name and the
python_imports set (a list here; the edge set only observes
membership). -/
structure CodeSummary where
  pathName : String
  pythonImports : List String
deriving Repr, DecidableEq

/-- A Python dict as the list of its assignments in program order; a
later assignment shadows an earlier one, dict.get of an absent key is
None. -/
def dictGet : List (String × String) → String → Option String
  | [], _ => none
  | (k, v) :: rest, key =>
    match dictGet rest key with
    | some r => some r
    | none => if k == key then some v else none

/-- The alias set built for one repository name in _build_repo_alias_map.
Python builds a set literal; duplicates collapse there, and they are
harmless here because every alias of a repo is assigned the same value. -/
def repoAliases (name : String) : List String :=
  [name, replaceHyphens name "_", replaceHyphens name ""]

/-- The function _build_repo_alias_map from report_generator.py: for each repo in
order, assign alias.lower() → repo.name for each alias. -/
def _build_repo_alias_map : List RepositoryInfo → List (String × String)
  | [] => []
  | repo :: rest =>
    ((repoAliases repo.name).map fun a => (strLower a, repo.name))
      ++ _build_repo_alias_map rest

/-- INTERESTING_PREFIXES from report_generator.py. -/
def interestingRepoStarts : List String := ["darwin-", "pcs-", "hyperbolic-"]

/-- The predicate _is_interesting_repo from report_generator.py. -/
def _is_interesting_repo (repoName : String) : Bool :=
  interestingRepoStarts.any fun p => strStartsWith repoName p

/-- Adding an edge to the Python edge set, modelled on duplicate-free
insertion lists; only membership is ever observed. -/
def addEdge (edges : List (String × String)) (e : String × String) :
    List (String × String) :=
  if e ∈ edges then edges else e :: edges

/-- The inner import loop of _render_dependency_graph, for one summary:
resolve each imported module through the alias map and add the edge when
the target is truthy, differs from the source, and is interesting. -/
def edgesForSummary (aliasMap : List (String × String)) (summary : CodeSummary)
    (edges : List (String × String)) : List (String × String) :=
  if !_is_interesting_repo summary.pathName then edges
  else
    summary.pythonImports.foldl
      (fun es module =>
        match dictGet aliasMap (strLower module) with
        | none => es
        | some targetRepo =>
          -- `if not target_repo or target_repo == source_repo: continue`
          if !strTruthy (some targetRepo) then es
          else if targetRepo == summary.pathName then es
          else if !_is_interesting_repo targetRepo then es
          else addEdge es (summary.pathName, targetRepo))
      edges

/-- The edge set of _render_dependency_graph (the rendering of nodes and
mermaid lines displays this set and is omitted). -/
def dependencyEdges (repositories : List RepositoryInfo)
    (summaries : List CodeSummary) : List (String × String) :=
  summaries.foldl
    (fun es s => edgesForSummary (_build_repo_alias_map repositories) s es) []

/-! ### output/scripts.py : port-forward script generation -/

/-- Dataclass KubernetesService from discovery/services.py (selector as
an association list). -/
structure KubernetesService where
  «namespace» : String
  name : String
  ports : List Int := []
  selector : Option (List (String × String)) := none
deriving Repr, DecidableEq

/-- INTERESTING_NAMESPACES from output/scripts.py. -/
def interestingNamespaces : List String := ["darwin", "pcs", "hyperbolic"]

/-- The service-name allow list of output/scripts.py (its second
constant, holding the same three entries). -/
def interestingNameStarts : List String := ["darwin", "pcs", "hyperbolic"]

/-- The predicate _is_interesting_service from output/scripts.py. -/
def _is_interesting_service (service : KubernetesService) : Bool :=
  let ns := strLower service.«namespace»
  let name := strLower service.name
  if interestingNamespaces.any (fun p => strStartsWith ns p) then true
  else interestingNameStarts.any (fun p => strStartsWith name p)

/-- The kubectl command emitted for one (service, port) pair. -/
def portForwardCommand (service : KubernetesService) (port : Int) : String :=
  "kubectl port-forward -n " ++ service.«namespace» ++ " svc/" ++ service.name
    ++ " " ++ toString port ++ ":" ++ toString port ++ " &"

/-- The command loop of generate_port_forward_script: for each
qualifying service in order and each of its ports in order, add the port
to the forwarded set and append one command. -/
def forwardLoop (services : List KubernetesService) : List Int × List String :=
  services.foldl
    (fun acc service =>
      service.ports.foldl
        (fun acc2 port => (setAdd acc2.1 port, acc2.2 ++ [portForwardCommand service port]))
        acc)
    ([], [])

/-- generate_port_forward_script from output/scripts.py, up to the file
write and chmod: the filtered services feed the command loop, and the
script text is the returned line list. -/
def generate_port_forward_script (services : List KubernetesService) :
    List Int × List String × List String :=
  let qualifying := services.filter fun svc =>
    !svc.ports.isEmpty && _is_interesting_service svc
  let (forwardedPorts, commands) := forwardLoop qualifying
  let header := ["#!/bin/bash", "",
    "# Script gerado automaticamente pelo Beagle para encaminhar serviços Darwin.",
    "set -euo pipefail", ""]
  let lines :=
    if !commands.isEmpty then
      header ++ commands ++ ["",
        "# Mantém os encaminhamentos ativos até interrupção manual (Ctrl+C).",
        "wait"]
    else
      header ++ ["# Nenhum serviço Kubernetes relevante foi identificado para port-forward."]
  (forwardedPorts, commands, lines)

/-! ### beagle.py : the fix command -/

/-- The user-visible outcome of one fix cycle: Exit(0) on the no-op
path, Exit(2) when Popen raises, normal completion on success, Exit(3)
when verification fails, Exit(130) on KeyboardInterrupt, and a
propagated exception otherwise. -/
inductive FixOutcome where
  | noopSuccess
  | spawnFailed
  | success
  | notStabilized
  | interrupted
  | raisedError
deriving Repr, DecidableEq

/-- What the finally block does to the child process. -/
inductive ChildAction where
  | leftRunning
  | terminated
  | killedAfterGrace
deriving Repr, DecidableEq

/-- How the try body of fix ends: runs to completion, is cut short by
KeyboardInterrupt, or is cut short by some other exception. -/
inductive BodyEnd where
  | completes
  | keyboardInterrupt
  | otherException
deriving Repr, DecidableEq

/-- Everything the stabilization phase of fix observes: how the try body
ends, the refreshed listening ports, the re-run health results, and the
state of the child process at cleanup time. -/
structure StabilizeObs where
  bodyEnd : BodyEnd
  openPorts : List Int
  healthResults : List HealthCheckResult
  childAlive : Bool
  childExitsInGrace : Bool
deriving Repr, DecidableEq

/-- missing_ports in fix: the forwarded ports not currently listening,
sorted. -/
def missingPorts (forwardedPorts openPorts : List Int) : List Int :=
  sortInts (forwardedPorts.filter fun port => !openPorts.contains port)

/-- The finally block of fix: when success was not reached and the child
is still alive, terminate it and, if it does not exit within the 5 s
grace window, kill it; otherwise do nothing (on success the child is
deliberately left running). -/
def finallyCleanup (success : Bool) (obs : StabilizeObs) : ChildAction :=
  if !success && obs.childAlive then
    if obs.childExitsInGrace then .terminated else .killedAfterGrace
  else .leftRunning

/-- The try/except/finally of fix after the child was spawned: the
success flag starts False and becomes True only on the fully-verified
branch; every exit path runs finallyCleanup with the flag it reached. -/
def fixAfterSpawn (forwardedPorts : List Int) (obs : StabilizeObs) :
    FixOutcome × ChildAction :=
  match obs.bodyEnd with
  | .keyboardInterrupt => (.interrupted, finallyCleanup false obs)
  | .otherException => (.raisedError, finallyCleanup false obs)
  | .completes =>
    let missing := missingPorts forwardedPorts obs.openPorts
    let successHealth := obs.healthResults.all fun r => r.ok
    if successHealth && missing.isEmpty then (.success, finallyCleanup true obs)
    else (.notStabilized, finallyCleanup false obs)

/-- The trace of one fix cycle: its outcome, whether a child process was
ever spawned, and what happened to that child. -/
structure FixTrace where
  outcome : FixOutcome
  spawnAttempted : Bool
  childAction : ChildAction
deriving Repr, DecidableEq

/-- The fix command from beagle.py, from script generation on: exit 0
without spawning when no ports are forwarded, exit 2 when Popen raises,
and otherwise the stabilization phase above. -/
def fixCycle (services : List KubernetesService) (spawnOk : Bool)
    (obs : StabilizeObs) : FixTrace :=
  let forwardedPorts := (generate_port_forward_script services).1
  if forwardedPorts.isEmpty then
    ⟨.noopSuccess, false, .leftRunning⟩
  else if !spawnOk then
    ⟨.spawnFailed, true, .leftRunning⟩
  else
    ⟨(fixAfterSpawn forwardedPorts obs).1, true, (fixAfterSpawn forwardedPorts obs).2⟩

/-! ### Concrete fixtures for closed instances -/

/-- A small deterministic network: port 8090 answers HTTP 200 on its
health URL, ports 8090 and 6333 accept TCP, everything else fails. -/
def demoNetEnv : NetEnv where
  httpGet u :=
    if u == "http://localhost:8090/health" then .response 200 true
    else .failure "timeout"
  tcpConnect host port :=
    if host == "localhost" && (port == 8090 || port == 6333) then .connected
    else .failure "connection refused"

/-- A misconfigured check: neither url nor port. -/
def brokenCheck : HealthCheck := { name := "broken" }

/-- A TCP-only check on port 6333. -/
def qdrantTcpCheck : HealthCheck :=
  { name := "Qdrant", port := some 6333, expectHttp := false }

def darwinHyphen : RepositoryInfo :=
  { name := "darwin-core", path := "/repos/darwin-core" }

def darwinUnderscore : RepositoryInfo :=
  { name := "darwin_core", path := "/repos/darwin_core" }

def darwinApi : RepositoryInfo :=
  { name := "darwin-api", path := "/repos/darwin-api" }

/-- darwin-api imports the module darwin_core. -/
def darwinApiSummary : CodeSummary :=
  { pathName := "darwin-api", pythonImports := ["darwin_core"] }

def demoQualifyingService : KubernetesService :=
  { «namespace» := "darwin", name := "darwin-gateway", ports := [8090] }

def demoPortlessService : KubernetesService :=
  { «namespace» := "darwin", name := "darwin-headless", ports := [] }

def demoBoringService : KubernetesService :=
  { «namespace» := "kube-system", name := "kube-dns", ports := [53] }

/-- A stabilization phase that completes with port 8090 listening and
its health check green. -/
def demoObsSuccess : StabilizeObs :=
  { bodyEnd := .completes, openPorts := [8090],
    healthResults :=
      [{ name := "Porta 8090", url := none, statusCode := some 200, ok := true }],
    childAlive := true, childExitsInGrace := true }

/-- A stabilization phase cut short by Ctrl+C, with a child that
ignores the graceful terminate. -/
def demoObsInterrupt : StabilizeObs :=
  { bodyEnd := .keyboardInterrupt, openPorts := [], healthResults := [],
    childAlive := true, childExitsInGrace := false }

/-! ### Helper lemmas -/

/-- runOneHealthCheck reports the name of the check it probed. -/
theorem runOneHealthCheck_name (env : NetEnv) (check : HealthCheck) :
    (runOneHealthCheck env check).name = check.name := by
  unfold runOneHealthCheck
  split
  · split <;> rfl
  · split
    · rfl
    · split
      · rfl
      · split
        · split <;> rfl
        · rfl

/-- Membership in the Python-set add. -/
theorem mem_setAdd (s : List Int) (p q : Int) :
    q ∈ setAdd s p ↔ q = p ∨ q ∈ s := by
  unfold setAdd
  split
  · constructor
    · exact fun h => Or.inr h
    · rintro (rfl | h) <;> assumption
  · simp [List.mem_cons]

/-- A foldl whose step preserves an invariant preserves it overall. -/
theorem foldl_preserve {α β : Type} (P : β → Prop) (step : β → α → β)
    (hstep : ∀ b a, P b → P (step b a)) :
    ∀ (l : List α) (b : β), P b → P (l.foldl step b) := by
  intro l
  induction l with
  | nil => intro b hb; exact hb
  | cons a l ih => intro b hb; exact ih _ (hstep _ _ hb)

/-! ### C10 : run_health_checks keeps the spec sequence -/

/-- C10: for every finite list of health-check specs, run_health_checks
returns exactly one result per spec, in the same order, and the i-th
result carries the i-th spec name. -/
theorem run_health_checks_preserves_specs (env : NetEnv)
    (checks : List HealthCheck) :
    (run_health_checks env checks).length = checks.length ∧
    ∀ i : Nat, ((run_health_checks env checks)[i]?).map HealthCheckResult.name
      = (checks[i]?).map HealthCheck.name := by
  constructor
  · simp [run_health_checks]
  · intro i
    simp only [run_health_checks, List.getElem?_map, Option.map_map]
    cases checks[i]? with
    | none => rfl
    | some c => simp [runOneHealthCheck_name]

/-! ### C7 : misconfigured specs resolve to a failed result -/

/-- C7: a spec with neither url nor port yields exactly one result,
failed, named after the spec, with a non-empty error string. -/
theorem run_health_checks_misconfigured (env : NetEnv) (check : HealthCheck)
    (hurl : strTruthy check.url = false) (hport : check.port = none) :
    ∃ r, run_health_checks env [check] = [r] ∧ r.ok = false ∧
      r.name = check.name ∧ ∃ msg, r.error = some msg ∧ msg ≠ "" := by
  refine ⟨{ name := check.name, url := none, statusCode := none, ok := false,
            error := some "Health check sem URL ou porta definida.",
            port := none }, ?_, rfl, rfl,
          "Health check sem URL ou porta definida.", rfl, by decide⟩
  simp [run_health_checks, runOneHealthCheck, hurl, hport]

/-- Closed instance of C7. -/
theorem run_health_checks_misconfigured_witness :
    strTruthy brokenCheck.url = false ∧ brokenCheck.port = none ∧
    ∃ r, run_health_checks demoNetEnv [brokenCheck] = [r] ∧ r.ok = false ∧
      r.name = brokenCheck.name ∧ ∃ msg, r.error = some msg ∧ msg ≠ "" :=
  ⟨rfl, rfl, run_health_checks_misconfigured demoNetEnv brokenCheck rfl rfl⟩

/-! ### C2 : the port branch of run_health_checks -/

/-- C2: for a spec with url unset and port set, a failing TCP connect
produces the failed result with the connect error and the outcome is
independent of the HTTP layer; on TCP success with expect_http the
health URL is probed and reported like the URL case; on TCP success
without expect_http the result is ok with no status code. -/
theorem run_health_checks_port_branch (env env2 : NetEnv) (check : HealthCheck)
    (p : Int) (hurl : strTruthy check.url = false) (hport : check.port = some p) :
    (∀ msg, env.tcpConnect check.host p = .failure msg →
      run_health_checks env [check] =
        [{ name := check.name, url := none, statusCode := none, ok := false,
           error := some msg, port := some p }] ∧
      (env2.tcpConnect = env.tcpConnect →
        run_health_checks env2 [check] = run_health_checks env [check])) ∧
    (env.tcpConnect check.host p = .connected → check.expectHttp = true →
      (∀ status ok, env.httpGet (healthUrl check.host p) = .response status ok →
        run_health_checks env [check] =
          [{ name := check.name, url := some (healthUrl check.host p),
             statusCode := some status, ok := ok, port := some p }]) ∧
      (∀ msg, env.httpGet (healthUrl check.host p) = .failure msg →
        run_health_checks env [check] =
          [{ name := check.name, url := some (healthUrl check.host p),
             statusCode := none, ok := false, error := some msg,
             port := some p }])) ∧
    (env.tcpConnect check.host p = .connected → check.expectHttp = false →
      run_health_checks env [check] =
        [{ name := check.name, url := none, statusCode := none, ok := true,
           error := none, port := some p }]) := by
  refine ⟨?_, ?_, ?_⟩
  · intro msg htcp
    constructor
    · simp [run_health_checks, runOneHealthCheck, hurl, hport, htcp]
    · intro henv
      simp [run_health_checks, runOneHealthCheck, hurl, hport, htcp, henv]
  · intro htcp hhttp
    constructor
    · intro status ok hresp
      simp [run_health_checks, runOneHealthCheck, hurl, hport, htcp, hhttp, hresp]
    · intro msg hresp
      simp [run_health_checks, runOneHealthCheck, hurl, hport, htcp, hhttp, hresp]
  · intro htcp hhttp
    simp [run_health_checks, runOneHealthCheck, hurl, hport, htcp, hhttp]

/-- Closed instance of C2, on the TCP-only path. -/
theorem run_health_checks_port_branch_witness :
    strTruthy qdrantTcpCheck.url = false ∧
    qdrantTcpCheck.port = some 6333 ∧
    run_health_checks demoNetEnv [qdrantTcpCheck] =
      [{ name := "Qdrant", url := none, statusCode := none, ok := true,
         error := none, port := some 6333 }] :=
  ⟨rfl, rfl,
    (run_health_checks_port_branch demoNetEnv demoNetEnv qdrantTcpCheck 6333
      rfl rfl).2.2 (by decide) rfl⟩

/-! ### C3 : default-port augmentation never duplicates a registered port -/

/-- The registered_ports set of _assemble_health_checks holds exactly
the ports registered by some config entry. -/
theorem mem_registered_iff (entries : List ConfigEntry) (P : Int) :
    P ∈ (assembleFromConfig entries).2 ↔ ∃ e ∈ entries, registersPort e P := by
  induction entries with
  | nil => simp [assembleFromConfig]
  | cons entry rest ih =>
    unfold assembleFromConfig
    rcases hname : strTruthy entry.name with _ | _
    · simp only [hname, Bool.not_false, if_true]
      rw [ih]
      constructor
      · intro ⟨e, he, hr⟩; exact ⟨e, List.mem_cons_of_mem _ he, hr⟩
      · rintro ⟨e, he, hr⟩
        rcases List.mem_cons.mp he with rfl | he2
        · exact absurd hr.1 (by simp [hname])
        · exact ⟨e, he2, hr⟩
    · rcases hurl : strTruthy entry.url with _ | _
      · simp only [hname, hurl, Bool.not_true, Bool.false_eq_true, if_false]
        cases hp : entry.port with
        | none =>
          rw [ih]
          constructor
          · intro ⟨e, he, hr⟩; exact ⟨e, List.mem_cons_of_mem _ he, hr⟩
          · rintro ⟨e, he, hr⟩
            rcases List.mem_cons.mp he with rfl | he2
            · exact absurd hr.2.2 (by simp [hp])
            · exact ⟨e, he2, hr⟩
        | some pf =>
          cases pf with
          | invalid raw =>
            rw [ih]
            constructor
            · intro ⟨e, he, hr⟩; exact ⟨e, List.mem_cons_of_mem _ he, hr⟩
            · rintro ⟨e, he, hr⟩
              rcases List.mem_cons.mp he with rfl | he2
              · exact absurd hr.2.2 (by simp [hp])
              · exact ⟨e, he2, hr⟩
          | valid n =>
            simp only [mem_setAdd]
            rw [ih]
            constructor
            · rintro (rfl | ⟨e, he, hr⟩)
              · exact ⟨entry, List.mem_cons_self _ _, hname, hurl, hp⟩
              · exact ⟨e, List.mem_cons_of_mem _ he, hr⟩
            · rintro ⟨e, he, hr⟩
              rcases List.mem_cons.mp he with rfl | he2
              · left
                have := hr.2.2
                rw [hp] at this
                injection this with h
                injection h with h2
                exact h2.symm
              · right; exact ⟨e, he2, hr⟩
      · simp only [hname, hurl, Bool.not_true, Bool.false_eq_true, if_false, if_true]
        rw [ih]
        constructor
        · intro ⟨e, he, hr⟩; exact ⟨e, List.mem_cons_of_mem _ he, hr⟩
        · rintro ⟨e, he, hr⟩
          rcases List.mem_cons.mp he with rfl | he2
          · exact absurd hr.2.1 (by simp [hurl])
          · exact ⟨e, he2, hr⟩

/-- A check appended by the augmentation loop carries port p exactly
when p is a default port not in the registered set. -/
theorem port_mem_defaultChecks (R : List Int) (p : Int) :
    (∃ c ∈ defaultChecks R, c.port = some p) ↔
      p ∈ DEFAULT_PORT_CHECKS ∧ p ∉ R := by
  unfold defaultChecks
  constructor
  · rintro ⟨c, hc, hp⟩
    rcases List.mem_map.mp hc with ⟨q, hq, rfl⟩
    rcases List.mem_filter.mp hq with ⟨hqd, hqr⟩
    injection hp with hqp
    subst hqp
    refine ⟨hqd, ?_⟩
    simpa using hqr
  · rintro ⟨hpd, hpr⟩
    refine ⟨_, List.mem_map.mpr ⟨p, List.mem_filter.mpr ⟨hpd, by simpa using hpr⟩, rfl⟩, rfl⟩

/-- C3: when a config entry registers port P, the default-port
augmentation adds no check for P; and a default port is augmented
exactly when no config entry registered it. -/
theorem default_augmentation_no_duplicate (entries : List ConfigEntry) (P : Int)
    (h : ∃ e ∈ entries, registersPort e P) :
    (∀ c ∈ defaultChecks (assembleFromConfig entries).2, c.port ≠ some P) ∧
    (∀ p ∈ DEFAULT_PORT_CHECKS,
      ((∃ c ∈ defaultChecks (assembleFromConfig entries).2, c.port = some p) ↔
        ¬ ∃ e ∈ entries, registersPort e p)) := by
  constructor
  · intro c hc hp
    have hmem := (port_mem_defaultChecks _ P).mp ⟨c, hc, hp⟩
    have hreg := (mem_registered_iff entries P).mpr h
    exact hmem.2 hreg
  · intro p hp
    rw [port_mem_defaultChecks, ← mem_registered_iff]
    exact ⟨fun h2 => h2.2, fun h2 => ⟨hp, h2⟩⟩

/-- Closed instance of C3: the explicitly registered port 6333 is not
augmented, ports 8090 and 6333 behave per registration. -/
theorem default_augmentation_no_duplicate_witness :
    (∃ e ∈ [({ name := some "Qdrant", port := some (.valid 6333) } : ConfigEntry)],
      registersPort e 6333) ∧
    (∀ c ∈ defaultChecks
        (assembleFromConfig
          [({ name := some "Qdrant", port := some (.valid 6333) } : ConfigEntry)]).2,
      c.port ≠ some 6333) :=
  ⟨by decide,
    (default_augmentation_no_duplicate
      [({ name := some "Qdrant", port := some (.valid 6333) } : ConfigEntry)] 6333
      (by decide)).1⟩

/-! ### C4, C5 : the repo alias table -/

/-- Cons step of dictGet, phrased with Option.or. -/
theorem dictGet_cons (k1 v : String) (rest : List (String × String)) (k : String) :
    dictGet ((k1, v) :: rest) k =
      (dictGet rest k).or (if k1 == k then some v else none) := by
  cases h : dictGet rest k <;> simp [dictGet, h, Option.or]

/-- dictGet over an append: entries of the right part, being later
assignments, win. -/
theorem dictGet_append (l₁ l₂ : List (String × String)) (k : String) :
    dictGet (l₁ ++ l₂) k = (dictGet l₂ k).or (dictGet l₁ k) := by
  induction l₁ with
  | nil => simp [dictGet]
  | cons kv l₁ ih =>
    rw [List.cons_append]
    cases kv with
    | mk k1 v => rw [dictGet_cons, dictGet_cons, ih, Option.or_assoc]

/-- dictGet on the alias entries of a single repository. -/
theorem dictGet_aliasEntries (as : List String) (n : String) (k : String) :
    dictGet (as.map fun a => (strLower a, n)) k =
      if as.any (fun a => strLower a == k) then some n else none := by
  induction as with
  | nil => rfl
  | cons a as ih =>
    rw [List.map_cons, dictGet_cons, ih]
    cases h1 : as.any (fun x => strLower x == k) <;>
      cases h2 : strLower a == k <;>
        simp [List.any_cons, h1, h2, Option.or]

/-- The full resolution behaviour of the alias table: a key resolves to
the name of the last repository in registration order whose alias set
contains it. -/
theorem dictGet_build_repo_alias_map (repos : List RepositoryInfo) (key : String) :
    dictGet (_build_repo_alias_map repos) key =
      (repos.reverse.find? fun r =>
          (repoAliases r.name).any fun a => strLower a == key).map
        RepositoryInfo.name := by
  induction repos with
  | nil => rfl
  | cons repo rest ih =>
    show dictGet (((repoAliases repo.name).map fun a => (strLower a, repo.name))
        ++ _build_repo_alias_map rest) key = _
    rw [dictGet_append, ih, List.reverse_cons, List.find?_append]
    cases h : rest.reverse.find?
        (fun r => (repoAliases r.name).any fun a => strLower a == key) with
    | some r => simp [Option.or, h]
    | none =>
      simp only [h, Option.or]
      rw [dictGet_aliasEntries]
      cases hp : (repoAliases repo.name).any (fun a => strLower a == key) <;>
        simp [List.find?, hp]

/-- C4 counterexample: darwin-core and darwin_core collide on the alias
key darwin_core; the first-registered canonical name is darwin-core,
but the table resolves the key to darwin_core. -/
theorem alias_collision_counterexample :
    (strLower (replaceHyphens darwinHyphen.name "_") = "darwin_core" ∧
     strLower darwinUnderscore.name = "darwin_core") ∧
    darwinHyphen.name = "darwin-core" ∧
    dictGet (_build_repo_alias_map [darwinHyphen, darwinUnderscore]) "darwin_core"
      = some "darwin_core" ∧
    dictGet (_build_repo_alias_map [darwinHyphen, darwinUnderscore]) "darwin_core"
      ≠ some darwinHyphen.name := by
  decide

/-- C4 amended: the alias table maps every lower-cased alias of every
repository to a canonical repository name, and when two repositories
produce the same alias key the table resolves it to the last-registered
canonical name. -/
theorem alias_map_last_registration_wins (repos : List RepositoryInfo) (key : String) :
    (dictGet (_build_repo_alias_map repos) key =
      (repos.reverse.find? fun r =>
          (repoAliases r.name).any fun a => strLower a == key).map
        RepositoryInfo.name) ∧
    ∀ r ∈ repos, ∀ a ∈ repoAliases r.name, ∃ canonical,
      dictGet (_build_repo_alias_map repos) (strLower a) = some canonical := by
  refine ⟨dictGet_build_repo_alias_map repos key, ?_⟩
  intro r hr a ha
  rw [dictGet_build_repo_alias_map repos (strLower a)]
  cases hf : repos.reverse.find?
      (fun r2 => (repoAliases r2.name).any fun x => strLower x == strLower a) with
  | some r2 => exact ⟨r2.name, by simp [hf]⟩
  | none =>
    exfalso
    have hnone := List.find?_eq_none.mp hf r (List.mem_reverse.mpr hr)
    have : (repoAliases r.name).any (fun x => strLower x == strLower a) = true :=
      List.any_eq_true.mpr ⟨a, ha, by simp⟩
    exact hnone this

/-- Closed instance of the C4 amended theorem at the colliding pair. -/
theorem alias_map_last_registration_wins_witness :
    darwinHyphen ∈ [darwinHyphen, darwinUnderscore] ∧
    "darwin_core" ∈ repoAliases darwinHyphen.name ∧
    ∃ canonical,
      dictGet (_build_repo_alias_map [darwinHyphen, darwinUnderscore])
        (strLower "darwin_core") = some canonical :=
  ⟨by decide, by decide,
    (alias_map_last_registration_wins [darwinHyphen, darwinUnderscore]
        "darwin_core").2
      darwinHyphen (by decide) "darwin_core" (by decide)⟩

/-- C5 counterexample: with registration order [darwin-core,
darwin_core] the two normalized forms resolve to different canonical
nodes. -/
theorem alias_order_counterexample :
    dictGet (_build_repo_alias_map [darwinHyphen, darwinUnderscore]) "darwin_core"
      = some "darwin_core" ∧
    dictGet (_build_repo_alias_map [darwinHyphen, darwinUnderscore]) "darwincore"
      = some "darwin-core" ∧
    some ("darwin_core" : String) ≠ some ("darwin-core" : String) := by
  decide

/-- C5 amended: resolution of the normalized forms depends on
registration order; both forms agree only when darwin-core registers
last. -/
theorem alias_resolution_order_sensitive :
    (dictGet (_build_repo_alias_map [darwinUnderscore, darwinHyphen]) "darwin_core"
        = some "darwin-core" ∧
     dictGet (_build_repo_alias_map [darwinUnderscore, darwinHyphen]) "darwincore"
        = some "darwin-core") ∧
    (dictGet (_build_repo_alias_map [darwinHyphen, darwinUnderscore]) "darwin_core"
        = some "darwin_core" ∧
     dictGet (_build_repo_alias_map [darwinHyphen, darwinUnderscore]) "darwincore"
        = some "darwin-core") := by
  decide

/-! ### C6 : the dependency-edge builder -/

/-- Membership after a set-style edge insertion. -/
theorem mem_addEdge {es : List (String × String)} {e x : String × String}
    (h : x ∈ addEdge es e) : x ∈ es ∨ x = e := by
  unfold addEdge at h
  split at h
  · exact Or.inl h
  · rcases List.mem_cons.mp h with rfl | h2
    · exact Or.inr rfl
    · exact Or.inl h2

/-- The import loop never introduces a self-edge. -/
theorem edgesForSummary_no_self (m : List (String × String)) (s : CodeSummary)
    (es : List (String × String)) (h : ∀ e ∈ es, e.1 ≠ e.2) :
    ∀ e ∈ edgesForSummary m s es, e.1 ≠ e.2 := by
  unfold edgesForSummary
  split
  · exact h
  · refine foldl_preserve
      (fun (es : List (String × String)) => ∀ e ∈ es, e.1 ≠ e.2) _ ?_ _ _ h
    intro b a hb
    cases hd : dictGet m (strLower a) with
    | none => simp only [hd]; exact hb
    | some target =>
      simp only [hd]
      cases h1 : !strTruthy (some target) with
      | true => simp only [h1, if_true]; exact hb
      | false =>
        simp only [h1, Bool.false_eq_true, if_false]
        cases h2 : target == s.pathName with
        | true => simp only [h2, if_true]; exact hb
        | false =>
          simp only [h2, Bool.false_eq_true, if_false]
          cases h3 : !_is_interesting_repo target with
          | true => simp only [h3, if_true]; exact hb
          | false =>
            simp only [h3, Bool.false_eq_true, if_false]
            intro e he
            rcases mem_addEdge he with he2 | rfl
            · exact hb e he2
            · intro hEq
              have : target = s.pathName := by
                simpa using hEq.symm
              rw [← this] at h2
              simp at h2

/-- C6: the edge-set builder is a pure function of its inputs (two runs
agree), and no edge of its output is a self-edge. -/
theorem dependency_edges_builder (repositories : List RepositoryInfo)
    (summaries : List CodeSummary) :
    dependencyEdges repositories summaries = dependencyEdges repositories summaries ∧
    ∀ e ∈ dependencyEdges repositories summaries, e.1 ≠ e.2 := by
  refine ⟨rfl, ?_⟩
  unfold dependencyEdges
  refine foldl_preserve
    (fun (es : List (String × String)) => ∀ e ∈ es, e.1 ≠ e.2) _ ?_ _ _ ?_
  · intro b s hb
    exact edgesForSummary_no_self _ s b hb
  · intro e he
    cases he

/-- Closed instance of C6: a repository importing a module that aliases
to another repository yields that edge, and it is not a self-edge. -/
theorem dependency_edges_builder_witness :
    ("darwin-api", "darwin-core") ∈
      dependencyEdges [darwinHyphen, darwinApi] [darwinApiSummary] ∧
    ("darwin-api" : String) ≠ "darwin-core" :=
  ⟨by decide,
    (dependency_edges_builder [darwinHyphen, darwinApi] [darwinApiSummary]).2
      ("darwin-api", "darwin-core") (by decide)⟩

/-! ### C1 : the verification decision of fix -/

/-- C1: a fix cycle that reaches verification succeeds exactly when no
forwarded port is missing from the listening set and every re-run
health result is ok; any other combination exits as not stabilized. -/
theorem fix_verified_success_iff (services : List KubernetesService)
    (obs : StabilizeObs)
    (hports : (generate_port_forward_script services).1 ≠ [])
    (hbody : obs.bodyEnd = .completes) :
    ((fixCycle services true obs).outcome = .success ↔
      (missingPorts (generate_port_forward_script services).1 obs.openPorts = [] ∧
        obs.healthResults.all (fun r => r.ok) = true)) ∧
    ((fixCycle services true obs).outcome = .success ∨
      (fixCycle services true obs).outcome = .notStabilized) := by
  have hne : (generate_port_forward_script services).1.isEmpty = false := by
    cases hv : (generate_port_forward_script services).1.isEmpty with
    | false => rfl
    | true => exact absurd (List.isEmpty_iff.mp hv) hports
  unfold fixCycle
  simp only [hne, Bool.false_eq_true, if_false, Bool.not_true]
  unfold fixAfterSpawn
  rw [hbody]
  simp only
  cases hcond : (obs.healthResults.all (fun r => r.ok) &&
      (missingPorts (generate_port_forward_script services).1 obs.openPorts).isEmpty) with
  | true =>
    rw [Bool.and_eq_true] at hcond
    obtain ⟨hh, hm⟩ := hcond
    have hcond2 : (obs.healthResults.all (fun r => r.ok) &&
        (missingPorts (generate_port_forward_script services).1
          obs.openPorts).isEmpty) = true := by
      rw [Bool.and_eq_true]; exact ⟨hh, hm⟩
    simp only [hcond2, if_true]
    exact ⟨⟨fun _ => ⟨List.isEmpty_iff.mp hm, hh⟩, fun _ => trivial⟩, Or.inl trivial⟩
  | false =>
    simp only [hcond, Bool.false_eq_true, if_false]
    constructor
    · constructor
      · intro hfalse; cases hfalse
      · rintro ⟨hm, hh⟩
        rw [hh, List.isEmpty_iff.mpr hm] at hcond
        cases hcond
    · exact Or.inr trivial

/-- Closed instance of C1: one qualifying service, its port listening,
health green, outcome success. -/
theorem fix_verified_success_iff_witness :
    (generate_port_forward_script [demoQualifyingService]).1 ≠ [] ∧
    demoObsSuccess.bodyEnd = .completes ∧
    (fixCycle [demoQualifyingService] true demoObsSuccess).outcome = .success :=
  ⟨by decide, rfl,
    ((fix_verified_success_iff [demoQualifyingService] demoObsSuccess
        (by decide) rfl).1).mpr ⟨by decide, by decide⟩⟩

/-! ### C8 : cleanup of the child process on every exit path -/

/-- C8: on every exit path after the spawn — completed verification,
exception, or interrupt — a non-success outcome with a live child
terminates it, killing it if it outlives the grace window; a success
outcome leaves the child running. -/
theorem fix_child_cleanup (forwardedPorts : List Int) (obs : StabilizeObs) :
    (((fixAfterSpawn forwardedPorts obs).1 ≠ .success ∧ obs.childAlive = true) →
      (fixAfterSpawn forwardedPorts obs).2 =
        if obs.childExitsInGrace then .terminated else .killedAfterGrace) ∧
    ((fixAfterSpawn forwardedPorts obs).1 = .success →
      (fixAfterSpawn forwardedPorts obs).2 = .leftRunning) := by
  unfold fixAfterSpawn
  cases hb : obs.bodyEnd with
  | keyboardInterrupt =>
    simp only
    refine ⟨fun h => ?_, fun h => by cases h⟩
    unfold finallyCleanup
    rw [h.2]
    rfl
  | otherException =>
    simp only
    refine ⟨fun h => ?_, fun h => by cases h⟩
    unfold finallyCleanup
    rw [h.2]
    rfl
  | completes =>
    simp only
    cases hcond : (obs.healthResults.all (fun r => r.ok) &&
        (missingPorts forwardedPorts obs.openPorts).isEmpty) with
    | true =>
      simp only [hcond, if_true]
      refine ⟨fun h => absurd rfl h.1, fun _ => ?_⟩
      unfold finallyCleanup
      rfl
    | false =>
      simp only [hcond, Bool.false_eq_true, if_false]
      refine ⟨fun h => ?_, fun h => by cases h⟩
      unfold finallyCleanup
      rw [h.2]
      rfl

/-- Closed instance of C8: Ctrl+C during stabilization with a child
that survives the grace window is force-killed. -/
theorem fix_child_cleanup_witness :
    (fixAfterSpawn [8090] demoObsInterrupt).1 ≠ .success ∧
    demoObsInterrupt.childAlive = true ∧
    (fixAfterSpawn [8090] demoObsInterrupt).2 = .killedAfterGrace :=
  ⟨by decide, rfl, by
    have h := (fix_child_cleanup [8090] demoObsInterrupt).1 ⟨by decide, rfl⟩
    simpa using h⟩

/-! ### C9 : nothing to forward means a no-op success -/

/-- C9: when no service passes the allow-list filter with at least one
port, fix terminates with the no-op success outcome, spawns nothing,
and touches no child. -/
theorem fix_noop_without_qualifying (services : List KubernetesService)
    (spawnOk : Bool) (obs : StabilizeObs)
    (h : ∀ svc ∈ services, svc.ports = [] ∨ _is_interesting_service svc = false) :
    fixCycle services spawnOk obs = ⟨.noopSuccess, false, .leftRunning⟩ := by
  have hfilter : services.filter
      (fun svc => !svc.ports.isEmpty && _is_interesting_service svc) = [] := by
    rw [List.filter_eq_nil_iff]
    intro svc hs
    rcases h svc hs with hp | hi
    · simp [hp]
    · simp [hi]
  unfold fixCycle generate_port_forward_script
  rw [hfilter]
  rfl

/-- Closed instance of C9: an interesting but port-less service and a
ported but uninteresting one; fix is a no-op success with no spawn. -/
theorem fix_noop_without_qualifying_witness :
    (∀ svc ∈ [demoPortlessService, demoBoringService],
      svc.ports = [] ∨ _is_interesting_service svc = false) ∧
    fixCycle [demoPortlessService, demoBoringService] true demoObsSuccess =
      ⟨.noopSuccess, false, .leftRunning⟩ :=
  ⟨by decide,
    fix_noop_without_qualifying [demoPortlessService, demoBoringService] true
      demoObsSuccess (by decide)⟩

end Beagle
